import Mathlib

/-!
Shallow embedding of the version-resolution and temporal-status core of
`mcp_server_eol` (file `src/mcp_server_eol/client.py`), together with proofs
of the specification's claims about it.

The embedded operations are:
* the record model `CycleInfo` (Pydantic model, client.py lines 15-27),
* record construction from raw catalog mappings and the per-product loop
  `get_product_versions` (client.py lines 119-139),
* the record-list version resolution loop inside `check_support_status`
  (client.py lines 177-198, the path taken after the single-cycle endpoint
  returns 404),
* the status evaluators `_is_version_supported` (lines 205-237) and
  `_is_version_eol` (lines 239-257).

Python standard-library functions used by the source (`datetime.fromisoformat`,
`str.replace`, `str.startswith`, `date` comparison) are modelled as executable
Lean functions on an explicit calendar-date structure.
-/

namespace EolSpec

/-- A calendar date, mirroring Python's `datetime.date` value `(year, month, day)`. -/
structure Date where
  year : Nat
  month : Nat
  day : Nat
deriving DecidableEq, Repr

/-- Python `date` comparison `a <= b`: lexicographic on `(year, month, day)`. -/
def Date.le (a b : Date) : Bool :=
  decide (a.year < b.year) ||
    (a.year == b.year &&
      (decide (a.month < b.month) ||
        (a.month == b.month && decide (a.day ≤ b.day))))

/-- Python `date` comparison `a < b`: lexicographic on `(year, month, day)`. -/
def Date.lt (a b : Date) : Bool :=
  decide (a.year < b.year) ||
    (a.year == b.year &&
      (decide (a.month < b.month) ||
        (a.month == b.month && decide (a.day < b.day))))

/-- Gregorian leap-year rule, as in Python's `calendar.isleap`. -/
def isLeapYear (y : Nat) : Bool :=
  y % 4 == 0 && (y % 100 != 0 || y % 400 == 0)

/-- Number of days in a month of the proleptic Gregorian calendar. -/
def daysInMonth (y m : Nat) : Nat :=
  if m == 2 then (if isLeapYear y then 29 else 28)
  else if m == 4 || m == 6 || m == 9 || m == 11 then 30
  else 31

/-- The day after `d` (Python `d + timedelta(days=1)`). -/
def Date.nextDay (d : Date) : Date :=
  if d.day < daysInMonth d.year d.month then ⟨d.year, d.month, d.day + 1⟩
  else if d.month < 12 then ⟨d.year, d.month + 1, 1⟩
  else ⟨d.year + 1, 1, 1⟩

/-- Numeric value of a decimal digit character, `none` on a non-digit. -/
def digitVal? (c : Char) : Option Nat :=
  if c.isDigit then some (c.toNat - 48) else none

/-- Two decimal digit characters as a number below 100. -/
def twoDigits? (a b : Char) : Option Nat :=
  match digitVal? a, digitVal? b with
  | some x, some y => some (x * 10 + y)
  | _, _ => none

/-- Four decimal digit characters as a number below 10000. -/
def fourDigits? (a b c d : Char) : Option Nat :=
  match digitVal? a, digitVal? b, digitVal? c, digitVal? d with
  | some w, some x, some y, some z => some (((w * 10 + x) * 10 + y) * 10 + z)
  | _, _, _, _ => none

/-- A UTC-offset suffix `±HH:MM` (or nothing), as accepted by
`datetime.fromisoformat` after a time component. -/
def validOffset (cs : List Char) : Bool :=
  match cs with
  | [] => true
  | [sg, h1, h2, ':', m1, m2] =>
    (sg == '+' || sg == '-') &&
      (match twoDigits? h1 h2, twoDigits? m1 m2 with
       | some hh, some mm => decide (hh < 24) && decide (mm < 60)
       | _, _ => false)
  | _ => false

/-- A time-of-day component `HH:MM[:SS]` with an optional UTC offset, as
accepted by `datetime.fromisoformat`. -/
def validTime (cs : List Char) : Bool :=
  match cs with
  | h1 :: h2 :: ':' :: m1 :: m2 :: rest =>
    (match twoDigits? h1 h2, twoDigits? m1 m2 with
     | some hh, some mm =>
       decide (hh < 24) && decide (mm < 60) &&
         (match rest with
          | ':' :: s1 :: s2 :: rest2 =>
            (match twoDigits? s1 s2 with
             | some ss => decide (ss < 60) && validOffset rest2
             | none => false)
          | _ => validOffset rest)
     | _, _ => false)
  | _ => false

/-- Model of the Python standard library `datetime.fromisoformat(·).date()`
on the grammar `YYYY-MM-DD[(T| )HH:MM[:SS][±HH:MM]]`: the calendar date is
validated and returned, a time component is validated and discarded (as
`.date()` does), and anything else fails with `none` (Python raises
`ValueError`). -/
def fromisoformatDate (cs : List Char) : Option Date :=
  match cs with
  | y1 :: y2 :: y3 :: y4 :: '-' :: m1 :: m2 :: '-' :: d1 :: d2 :: rest =>
    match fourDigits? y1 y2 y3 y4, twoDigits? m1 m2, twoDigits? d1 d2 with
    | some y, some m, some d =>
      if decide (1 ≤ y) && decide (1 ≤ m) && decide (m ≤ 12) &&
          decide (1 ≤ d) && decide (d ≤ daysInMonth y m) &&
          (match rest with
           | [] => true
           | sep :: tr => (sep == 'T' || sep == ' ') && validTime tr) then
        some ⟨y, m, d⟩
      else none
    | _, _, _ => none
  | _ => none

/-- Model of Python `s.replace('Z', '+00:00')` (single-character pattern):
every `'Z'` in the character list is replaced by `+00:00`. -/
def replaceZ : List Char → List Char
  | [] => []
  | 'Z' :: rest => '+' :: '0' :: '0' :: ':' :: '0' :: '0' :: replaceZ rest
  | c :: rest => c :: replaceZ rest

/-- The date-string parse used in both evaluators (client.py lines 215 and
230 and 250): `datetime.fromisoformat(s.replace('Z', '+00:00')).date()`,
with a parse failure reported as `none` instead of a raised `ValueError`. -/
def parseDateStr (s : String) : Option Date :=
  fromisoformatDate (replaceZ s.toList)

/-- Model of Python `s.startswith(pre)`. -/
def pyStartswith (s pre : String) : Bool :=
  pre.toList.isPrefixOf s.toList

/-- The value of a Pydantic field typed `Optional[Union[str, date, bool]]`
(or a subset of those alternatives): absent (`None`), a boolean, a raw
string, or a date value. -/
inductive FieldVal where
  | none
  | bool (b : Bool)
  | str (s : String)
  | date (d : Date)
deriving DecidableEq, Repr

/-- The `CycleInfo` Pydantic model (client.py lines 15-27): one release
cycle of one product. `cycle` is required; every other field is optional. -/
structure CycleInfo where
  cycle : String
  release_date : FieldVal := .none
  eol : FieldVal := .none
  latest : Option String := Option.none
  latest_release_date : FieldVal := .none
  lts : FieldVal := .none
  support : FieldVal := .none
deriving DecidableEq, Repr

/-- A raw catalog mapping as fetched for one cycle, before `CycleInfo`
construction: the `cycle` key may be absent. -/
structure RawCycle where
  cycle : Option String := Option.none
  releaseDate : FieldVal := .none
  eol : FieldVal := .none
  latest : Option String := Option.none
  latestReleaseDate : FieldVal := .none
  lts : FieldVal := .none
  support : FieldVal := .none
deriving DecidableEq, Repr

/-- Pydantic construction `CycleInfo(**version_data)` (client.py line 129):
fails with a validation error precisely when the required `cycle` key is
absent. -/
def CycleInfo.ofRaw (r : RawCycle) : Except String CycleInfo :=
  match r.cycle with
  | some c =>
    .ok ⟨c, r.releaseDate, r.eol, r.latest, r.latestReleaseDate, r.lts, r.support⟩
  | Option.none => .error "validation error: cycle field required"

/-- The construction loop of `get_product_versions` (client.py lines
127-130): each raw mapping is converted in order and appended; the loop body
runs inside the function's single `try`, so the first construction failure
propagates out of the whole loop (the `except` clause logs and re-raises). -/
def buildCycles : List RawCycle → Except String (List CycleInfo)
  | [] => .ok []
  | r :: rest =>
    match CycleInfo.ofRaw r with
    | .ok c =>
      match buildCycles rest with
      | .ok cs => .ok (c :: cs)
      | .error e => .error e
    | .error e => .error e

/-- The `ProductInfo` model (client.py lines 29-33). -/
structure ProductInfo where
  product : String
  versions : List CycleInfo
  count : Nat
deriving DecidableEq, Repr

/-- `get_product_versions` (client.py lines 119-139), applied to the raw
cycle list already fetched for the product: converts every raw mapping to a
`CycleInfo` and wraps the list; any conversion failure propagates as an
error for the whole call. -/
def get_product_versions (product : String) (versions_data : List RawCycle) :
    Except String ProductInfo :=
  match buildCycles versions_data with
  | .ok cycles => .ok ⟨product, cycles, cycles.length⟩
  | .error e => .error e

/-- The per-record match test of the resolution loop (client.py lines
178-180): `cycle.cycle == version or cycle.latest == version or
str(cycle.cycle).startswith(version)`. -/
def matchesVersion (version : String) (c : CycleInfo) : Bool :=
  c.cycle == version || c.latest == some version || pyStartswith c.cycle version

/-- The record-list resolution loop of `check_support_status` (client.py
lines 177-188): scan the records in order and return the first whose match
test succeeds, `none` when no record matches. -/
def resolveVersion (version : String) : List CycleInfo → Option CycleInfo
  | [] => Option.none
  | c :: rest =>
    if matchesVersion version c then some c else resolveVersion version rest

/-- `_is_version_supported` (client.py lines 205-237), with `date.today()`
passed explicitly. A boolean `support` is returned directly; a date (or
parseable date string) `support` gives `today <= support_end`; otherwise the
`eol` field serves as fallback: boolean negated, date (or parseable date
string) giving `today <= eol_end`; and `False` when nothing applies. -/
def eolFallbackSupported (today : Date) (v : FieldVal) : Bool :=
  match v with
  | .bool b => !b
  | .date d => Date.le today d
  | .str s =>
    match parseDateStr s with
    | some d => Date.le today d
    | Option.none => false
  | .none => false

def _is_version_supported (today : Date) (c : CycleInfo) : Bool :=
  match c.support with
  | .bool b => b
  | .date d => Date.le today d
  | .str s =>
    match parseDateStr s with
    | some d => Date.le today d
    | Option.none => eolFallbackSupported today c.eol
  | .none => eolFallbackSupported today c.eol

/-- `_is_version_eol` (client.py lines 239-257), with `date.today()` passed
explicitly: absent `eol` is `False`, boolean `eol` is returned as-is, a date
(or parseable date string) `eol` gives `today > eol_end`, and a string that
fails to parse gives `False`. -/
def _is_version_eol (today : Date) (c : CycleInfo) : Bool :=
  match c.eol with
  | .none => false
  | .bool b => b
  | .date d => Date.lt d today
  | .str s =>
    match parseDateStr s with
    | some d => Date.lt d today
    | Option.none => false

/-- The `SupportStatus` model (client.py lines 49-56). -/
structure SupportStatus where
  product : String
  version : String
  found : Bool
  cycle_info : Option CycleInfo
  is_supported : Bool
  is_eol : Bool
deriving DecidableEq, Repr

/-- `check_support_status` (client.py lines 159-203) on the path where the
single-cycle endpoint has returned 404 and the fetched record list is
scanned (lines 176-198): the first matching record is evaluated; when no
record matches, the worst-case `found=False, is_supported=False,
is_eol=True` result is returned as data. -/
def check_support_status (today : Date) (product version : String)
    (records : List CycleInfo) : SupportStatus :=
  match resolveVersion version records with
  | some c =>
    ⟨product, version, true, some c, _is_version_supported today c,
      _is_version_eol today c⟩
  | Option.none => ⟨product, version, false, Option.none, false, true⟩

/-- The date carried by a field value when it is a usable date: a `date`
value directly, or a string that parses as a date; booleans and absent
fields carry no date. Used to state the claims about "parseable date"
fields. -/
def fieldDate? : FieldVal → Option Date
  | .date d => some d
  | .str s => parseDateStr s
  | _ => Option.none

/-- A field value that yields neither a boolean nor a parseable date:
absent, or a string that fails to parse. -/
def unusableField : FieldVal → Bool
  | .none => true
  | .str s => (parseDateStr s).isNone
  | _ => false

/-- Reflexivity of the Python date order: `d <= d`. -/
theorem Date.le_self (d : Date) : Date.le d d = true := by
  simp [Date.le]

/-- Irreflexivity of the strict Python date order: not `d < d`. -/
theorem Date.lt_self (d : Date) : Date.lt d d = false := by
  simp [Date.lt]

/-- The day after `d` is not `<=` `d`. -/
theorem Date.nextDay_not_le (d : Date) : Date.le (Date.nextDay d) d = false := by
  unfold Date.nextDay
  split
  · simp [Date.le]
  · split <;> simp [Date.le]

/-- `d` is strictly before the day after `d`. -/
theorem Date.lt_nextDay (d : Date) : Date.lt d (Date.nextDay d) = true := by
  unfold Date.nextDay
  split
  · simp [Date.lt]
  · split <;> simp [Date.lt]

/-- Every record matches the empty requested version, through the prefix
rule: the empty string is a prefix of every cycle string. -/
theorem matchesVersion_empty (c : CycleInfo) : matchesVersion "" c = true := by
  have hp : pyStartswith c.cycle "" = true := by
    unfold pyStartswith
    simp [String.toList]
  simp [matchesVersion, hp]

/-- Claim C1, counterexample: in the record list
`[{cycle: "3.0", latest: "3.1"}, {cycle: "3.1"}]` a record's `cycle` equals
the requested version `"3.1"`, yet resolution returns the earlier record,
whose `cycle` is `"3.0"` and which matches only through its `latest` field —
exact-cycle match does not take precedence over an earlier latest-alias
match. -/
theorem resolveVersion_no_rule_precedence_cex :
    ({ cycle := "3.1" } : CycleInfo) ∈
        [({ cycle := "3.0", latest := some "3.1" } : CycleInfo),
          { cycle := "3.1" }] ∧
    resolveVersion "3.1"
        [{ cycle := "3.0", latest := some "3.1" }, { cycle := "3.1" }] =
      some { cycle := "3.0", latest := some "3.1" } ∧
    ({ cycle := "3.0", latest := some "3.1" } : CycleInfo).cycle ≠ "3.1" := by
  decide

/-- Claim C1, amended: the resolution loop checks the three rules (exact
cycle, latest alias, cycle prefix) together on each record while scanning
the list in order, so the first record matching ANY rule is returned; rule
precedence holds only within a single record, not across the list. When
some record's `cycle` equals the requested version, resolution does
succeed, returning the first record (at some index `k`) that matches any
rule, with every earlier record matching none. -/
theorem resolveVersion_first_disjunctive_match (version : String)
    (records : List CycleInfo) (h : ∃ r ∈ records, r.cycle = version) :
    ∃ k : Nat, ∃ hk : k < records.length,
      resolveVersion version records = some (records.get ⟨k, hk⟩) ∧
      matchesVersion version (records.get ⟨k, hk⟩) = true ∧
      ∀ r ∈ records.take k, matchesVersion version r = false := by
  induction records with
  | nil => simp at h
  | cons c rest ih =>
    by_cases hm : matchesVersion version c = true
    · refine ⟨0, Nat.succ_pos _, ?_, hm, by simp⟩
      simp [resolveVersion, hm]
    · obtain ⟨r, hr, hcyc⟩ := h
      rcases List.mem_cons.mp hr with rfl | hr2
      · exact absurd (by simp [matchesVersion, hcyc]) hm
      · obtain ⟨k, hk, h1, h2, h3⟩ := ih ⟨r, hr2, hcyc⟩
        refine ⟨k + 1, Nat.succ_lt_succ hk, ?_, h2, ?_⟩
        · simpa [resolveVersion, hm] using h1
        · intro x hx
          rw [List.take_succ_cons] at hx
          rcases List.mem_cons.mp hx with rfl | hx2
          · exact Bool.eq_false_iff.mpr hm
          · exact h3 x hx2

/-- Witness for C1 amended, at the counterexample's list: the requested
version `"3.1"` equals the second record's `cycle`, and resolution returns
the record at index 0, which matches (through `latest`) with no earlier
record. -/
theorem resolveVersion_first_disjunctive_match_witness :
    ∃ k : Nat,
      ∃ hk : k <
        ([{ cycle := "3.0", latest := some "3.1" },
          { cycle := "3.1" }] : List CycleInfo).length,
      resolveVersion "3.1"
          [{ cycle := "3.0", latest := some "3.1" }, { cycle := "3.1" }] =
        some (([{ cycle := "3.0", latest := some "3.1" },
          { cycle := "3.1" }] : List CycleInfo).get ⟨k, hk⟩) ∧
      matchesVersion "3.1"
          (([{ cycle := "3.0", latest := some "3.1" },
            { cycle := "3.1" }] : List CycleInfo).get ⟨k, hk⟩) = true ∧
      ∀ r ∈ ([{ cycle := "3.0", latest := some "3.1" },
          { cycle := "3.1" }] : List CycleInfo).take k,
        matchesVersion "3.1" r = false :=
  resolveVersion_first_disjunctive_match "3.1"
    [{ cycle := "3.0", latest := some "3.1" }, { cycle := "3.1" }]
    (by decide)

/-- Claim C2: when no record matches the requested version by any of the
three rules — in particular when the record list is empty, where the
hypothesis holds vacuously — `check_support_status` returns the worst-case
data result `found = false, is_supported = false, is_eol = true` (the
embedding is a total function: the result is returned as data, not raised
as an error). -/
theorem check_support_status_not_found (today : Date) (product version : String)
    (records : List CycleInfo)
    (h : ∀ r ∈ records, matchesVersion version r = false) :
    check_support_status today product version records =
      ⟨product, version, false, Option.none, false, true⟩ := by
  have hres : resolveVersion version records = Option.none := by
    induction records with
    | nil => rfl
    | cons c rest ih =>
      have hc := h c (List.mem_cons_self c rest)
      simp only [resolveVersion, hc, if_false, Bool.false_eq_true]
      exact ih fun r hr => h r (List.mem_cons_of_mem c hr)
  simp [check_support_status, hres]

/-- Witness for C2, at the spec's not-found scenario: requesting version
`"not-a-real-version"` of product `"nodejs"` against a list holding one
record with cycle `"18"` yields the worst-case result. -/
theorem check_support_status_not_found_witness :
    check_support_status ⟨2025, 1, 1⟩ "nodejs" "not-a-real-version"
        [{ cycle := "18", eol := FieldVal.bool true }] =
      ⟨"nodejs", "not-a-real-version", false, Option.none, false, true⟩ :=
  check_support_status_not_found ⟨2025, 1, 1⟩ "nodejs" "not-a-real-version"
    [{ cycle := "18", eol := FieldVal.bool true }] (by decide)

/-- Claim C3: with `support` absent, `is_supported` falls back to the `eol`
field with the boolean meaning inverted: `eol = true` (boolean) gives
`is_supported = false` for any `today`, and an `eol` carrying a parseable
date `D` gives `is_supported = true` at `today = D` and `false` at
`today = D + 1 day`. -/
theorem support_absent_falls_back_to_eol (c : CycleInfo) (D today : Date)
    (hs : c.support = FieldVal.none) :
    (c.eol = FieldVal.bool true → _is_version_supported today c = false) ∧
    (fieldDate? c.eol = some D →
      _is_version_supported D c = true ∧
      _is_version_supported (Date.nextDay D) c = false) := by
  constructor
  · intro he
    simp [_is_version_supported, hs, eolFallbackSupported, he]
  · intro he
    cases hE : c.eol with
    | date d =>
      have hd : d = D := by simpa [fieldDate?, hE] using he
      subst hd
      simp [_is_version_supported, hs, eolFallbackSupported, hE,
        Date.le_self, Date.nextDay_not_le]
    | str s =>
      have hp : parseDateStr s = some D := by simpa [fieldDate?, hE] using he
      simp [_is_version_supported, hs, eolFallbackSupported, hE, hp,
        Date.le_self, Date.nextDay_not_le]
    | none => simp [fieldDate?, hE] at he
    | bool b => simp [fieldDate?, hE] at he

/-- Witness for C3, at the spec's scenario of a record with `support`
absent and `eol = "2024-04-01"`: supported on the EOL date itself,
unsupported the day after. -/
theorem support_absent_falls_back_to_eol_witness :
    _is_version_supported ⟨2024, 4, 1⟩
        { cycle := "18", eol := FieldVal.str "2024-04-01" } = true ∧
    _is_version_supported (Date.nextDay ⟨2024, 4, 1⟩)
        { cycle := "18", eol := FieldVal.str "2024-04-01" } = false :=
  (support_absent_falls_back_to_eol
      { cycle := "18", eol := FieldVal.str "2024-04-01" }
      ⟨2024, 4, 1⟩ ⟨2024, 4, 1⟩ rfl).2 (by decide)

/-- Claim C4: a usable `support` field decides `is_supported` on its own,
for every record (hence regardless of the `eol` field): a boolean `support`
is returned directly, and a `support` carrying a parseable date `D` gives
`is_supported = (today <= D)` for any `today`. -/
theorem support_present_decides (c : CycleInfo) (today D : Date) (b : Bool) :
    (c.support = FieldVal.bool b → _is_version_supported today c = b) ∧
    (fieldDate? c.support = some D →
      _is_version_supported today c = Date.le today D) := by
  constructor
  · intro hb
    simp [_is_version_supported, hb]
  · intro hd
    cases hS : c.support with
    | date d =>
      have h2 : d = D := by simpa [fieldDate?, hS] using hd
      subst h2
      simp [_is_version_supported, hS]
    | str s =>
      have hp : parseDateStr s = some D := by simpa [fieldDate?, hS] using hd
      simp [_is_version_supported, hS, hp]
    | none => simp [fieldDate?, hS] at hd
    | bool c => simp [fieldDate?, hS] at hd

/-- Witness for C4, at the spec's security-only scenario: record
`{cycle: "3.11", eol: "2027-10-24", support: "2024-04-01"}` with
`today = 2025-01-01` has `is_supported` decided by the support date alone
(and `2025-01-01 <= 2024-04-01` is false). -/
theorem support_present_decides_witness :
    _is_version_supported ⟨2025, 1, 1⟩
        { cycle := "3.11", eol := FieldVal.str "2027-10-24",
          support := FieldVal.str "2024-04-01" } =
      Date.le ⟨2025, 1, 1⟩ ⟨2024, 4, 1⟩ ∧
    Date.le ⟨2025, 1, 1⟩ ⟨2024, 4, 1⟩ = false :=
  ⟨(support_present_decides
      { cycle := "3.11", eol := FieldVal.str "2027-10-24",
        support := FieldVal.str "2024-04-01" }
      ⟨2025, 1, 1⟩ ⟨2024, 4, 1⟩ true).2 (by decide), by decide⟩

/-- Claim C5: an `eol` field carrying a parseable date `D` (a date value,
or a parseable ISO-8601 string, optionally with a `Z` suffix) makes
`is_eol` exactly "today is strictly after `D`": in particular `is_eol` is
false at `today = D` and true at `today = D + 1 day`. -/
theorem eol_date_strictly_after (c : CycleInfo) (D today : Date)
    (h : fieldDate? c.eol = some D) :
    _is_version_eol today c = Date.lt D today ∧
    _is_version_eol D c = false ∧
    _is_version_eol (Date.nextDay D) c = true := by
  have key : ∀ t : Date, _is_version_eol t c = Date.lt D t := by
    intro t
    cases hE : c.eol with
    | date d =>
      have h2 : d = D := by simpa [fieldDate?, hE] using h
      subst h2
      simp [_is_version_eol, hE]
    | str s =>
      have hp : parseDateStr s = some D := by simpa [fieldDate?, hE] using h
      simp [_is_version_eol, hE, hp]
    | none => simp [fieldDate?, hE] at h
    | bool b => simp [fieldDate?, hE] at h
  exact ⟨key today, by rw [key D, Date.lt_self], by rw [key _, Date.lt_nextDay]⟩

/-- Witness for C5, at the record `{cycle: "3.11", eol: "2027-10-24"}`: not
EOL on 2027-10-24 itself, EOL the day after. -/
theorem eol_date_strictly_after_witness :
    _is_version_eol ⟨2027, 10, 24⟩
        { cycle := "3.11", eol := FieldVal.str "2027-10-24" } = false ∧
    _is_version_eol (Date.nextDay ⟨2027, 10, 24⟩)
        { cycle := "3.11", eol := FieldVal.str "2027-10-24" } = true :=
  (eol_date_strictly_after { cycle := "3.11", eol := FieldVal.str "2027-10-24" }
    ⟨2027, 10, 24⟩ ⟨2027, 10, 24⟩ (by decide)).2

/-- Claim C6: an absent `eol` gives `is_eol = false` for any `today`, and a
boolean `eol = b` gives `is_eol = b` for any `today`. -/
theorem eol_absent_or_boolean (c : CycleInfo) (today : Date) (b : Bool) :
    (c.eol = FieldVal.none → _is_version_eol today c = false) ∧
    (c.eol = FieldVal.bool b → _is_version_eol today c = b) := by
  constructor
  · intro he
    simp [_is_version_eol, he]
  · intro he
    simp [_is_version_eol, he]

/-- Witness for C6, at the spec's record `{cycle: "18", eol: true}` and a
record with `eol` absent. -/
theorem eol_absent_or_boolean_witness :
    _is_version_eol ⟨2025, 1, 1⟩ { cycle := "1.0" } = false ∧
    _is_version_eol ⟨2025, 1, 1⟩
        { cycle := "18", eol := FieldVal.bool true } = true :=
  ⟨(eol_absent_or_boolean { cycle := "1.0" } ⟨2025, 1, 1⟩ true).1 rfl,
    (eol_absent_or_boolean { cycle := "18", eol := FieldVal.bool true }
      ⟨2025, 1, 1⟩ true).2 rfl⟩

/-- Claim C7: parsing failures never propagate and evaluation fails closed
(both evaluators are total Lean functions, so a result is returned on every
record and every `today`): a string-valued `eol` that fails to parse gives
`is_eol = false` (treated as absent), and when neither `support` nor `eol`
yields a boolean or a parseable date (each absent or an unparseable
string), `is_supported = false`. -/
theorem evaluators_fail_closed (c : CycleInfo) (today : Date) (s : String) :
    (c.eol = FieldVal.str s → parseDateStr s = Option.none →
      _is_version_eol today c = false) ∧
    (unusableField c.support = true → unusableField c.eol = true →
      _is_version_supported today c = false) := by
  constructor
  · intro he hp
    simp [_is_version_eol, he, hp]
  · intro hsu heu
    have hfall : eolFallbackSupported today c.eol = false := by
      cases hE : c.eol with
      | str t =>
        have hp : parseDateStr t = Option.none := by
          simpa [unusableField, hE, Option.isNone_iff_eq_none] using heu
        simp [eolFallbackSupported, hp]
      | none => simp [eolFallbackSupported]
      | bool b => simp [unusableField, hE] at heu
      | date d => simp [unusableField, hE] at heu
    cases hS : c.support with
    | str t =>
      have hp : parseDateStr t = Option.none := by
        simpa [unusableField, hS, Option.isNone_iff_eq_none] using hsu
      simpa [_is_version_supported, hS, hp] using hfall
    | none => simpa [_is_version_supported, hS] using hfall
    | bool b => simp [unusableField, hS] at hsu
    | date d => simp [unusableField, hS] at hsu

/-- Witness for C7, at a record whose `eol` is the unparseable string
`"TBD"` and whose `support` is absent. -/
theorem evaluators_fail_closed_witness :
    _is_version_eol ⟨2025, 1, 1⟩ { cycle := "9", eol := FieldVal.str "TBD" } =
      false ∧
    _is_version_supported ⟨2025, 1, 1⟩
        { cycle := "9", eol := FieldVal.str "TBD" } = false :=
  ⟨(evaluators_fail_closed { cycle := "9", eol := FieldVal.str "TBD" }
      ⟨2025, 1, 1⟩ "TBD").1 rfl (by decide),
    (evaluators_fail_closed { cycle := "9", eol := FieldVal.str "TBD" }
      ⟨2025, 1, 1⟩ "TBD").2 (by decide) (by decide)⟩

/-- Claim C8, counterexample: on a raw list holding one well-formed mapping
(`cycle = "3.11"`) followed by one mapping without the `cycle` key,
`get_product_versions` does not skip the malformed mapping and return the
well-formed record — the construction failure propagates and the whole call
fails with an error. -/
theorem get_product_versions_no_skip_cex :
    get_product_versions "python"
        [{ cycle := some "3.11" }, { cycle := Option.none }] =
      .error "validation error: cycle field required" := rfl

/-- `buildCycles` succeeds exactly on lists whose raw mappings all carry the
`cycle` key, and then converts every mapping. -/
theorem buildCycles_ok_of_all_some (data : List RawCycle)
    (h : ∀ r ∈ data, r.cycle.isSome = true) :
    ∃ cs, buildCycles data = .ok cs ∧ cs.length = data.length := by
  induction data with
  | nil => exact ⟨[], rfl, rfl⟩
  | cons r rest ih =>
    obtain ⟨c, hc⟩ :=
      Option.isSome_iff_exists.mp (h r (List.mem_cons_self r rest))
    obtain ⟨cs, hcs, hlen⟩ := ih fun x hx => h x (List.mem_cons_of_mem r hx)
    refine ⟨⟨c, r.releaseDate, r.eol, r.latest, r.latestReleaseDate, r.lts,
      r.support⟩ :: cs, ?_, ?_⟩
    · simp [buildCycles, CycleInfo.ofRaw, hc, hcs]
    · simp [hlen]

/-- A raw mapping without the `cycle` key anywhere in the list makes
`buildCycles` fail as a whole. -/
theorem buildCycles_error_of_missing (data : List RawCycle)
    (h : ∃ r ∈ data, r.cycle = Option.none) :
    ∃ e, buildCycles data = .error e := by
  induction data with
  | nil => simp at h
  | cons r rest ih =>
    cases hc : r.cycle with
    | none =>
      refine ⟨"validation error: cycle field required", ?_⟩
      simp [buildCycles, CycleInfo.ofRaw, hc]
    | some c =>
      obtain ⟨x, hx, hxn⟩ := h
      rcases List.mem_cons.mp hx with rfl | hx2
      · rw [hc] at hxn
        exact absurd hxn (by simp)
      · obtain ⟨e, he⟩ := ih ⟨x, hx2, hxn⟩
        exact ⟨e, by simp [buildCycles, CycleInfo.ofRaw, hc, he]⟩

/-- Claim C8, amended: a raw mapping missing the required `cycle` key fails
the construction of that single record, but the caller does not skip it —
the failure propagates, so `get_product_versions` fails as a whole whenever
any raw mapping is malformed, returning no records at all; the full record
list is constructed and returned only when every raw mapping carries the
`cycle` key. -/
theorem get_product_versions_all_or_nothing (product : String)
    (data : List RawCycle) :
    ((∀ r ∈ data, r.cycle.isSome = true) →
      ∃ info, get_product_versions product data = .ok info ∧
        info.versions.length = data.length) ∧
    ((∃ r ∈ data, r.cycle = Option.none) →
      ∃ e, get_product_versions product data = .error e) := by
  constructor
  · intro h
    obtain ⟨cs, hcs, hlen⟩ := buildCycles_ok_of_all_some data h
    exact ⟨⟨product, cs, cs.length⟩, by simp [get_product_versions, hcs], hlen⟩
  · intro h
    obtain ⟨e, he⟩ := buildCycles_error_of_missing data h
    exact ⟨e, by simp [get_product_versions, he]⟩

/-- Witness for C8 amended: a well-formed singleton list is fully
converted, and appending a mapping without `cycle` makes the whole call
fail. -/
theorem get_product_versions_all_or_nothing_witness :
    (∃ info, get_product_versions "python" [{ cycle := some "3.11" }] =
        .ok info ∧
      info.versions.length =
        ([{ cycle := some "3.11" }] : List RawCycle).length) ∧
    (∃ e, get_product_versions "python"
        [{ cycle := some "3.11" }, { cycle := Option.none }] = .error e) :=
  ⟨(get_product_versions_all_or_nothing "python"
      [{ cycle := some "3.11" }]).1 (by decide),
    (get_product_versions_all_or_nothing "python"
      [{ cycle := some "3.11" }, { cycle := Option.none }]).2 (by decide)⟩

/-- Claim C9: the evaluators read only the `eol` and `support` fields — two
records agreeing on those two fields get the same `(is_supported, is_eol)`
pair for every `today`, however they differ in `lts`, `latest`,
`release_date`, `latest_release_date` (or `cycle`). -/
theorem evaluators_ignore_informational_fields (c1 c2 : CycleInfo)
    (today : Date) (he : c1.eol = c2.eol) (hs : c1.support = c2.support) :
    _is_version_supported today c1 = _is_version_supported today c2 ∧
    _is_version_eol today c1 = _is_version_eol today c2 := by
  constructor
  · simp only [_is_version_supported, he, hs]
  · simp only [_is_version_eol, he]

/-- Witness for C9: two records agreeing on `eol` and `support` but
differing in `cycle`, `latest`, `lts` and both release-date fields evaluate
identically. -/
theorem evaluators_ignore_informational_fields_witness :
    _is_version_supported ⟨2025, 1, 1⟩
        { cycle := "3.11", eol := FieldVal.str "2027-10-24",
          latest := some "3.11.9", lts := FieldVal.bool true,
          release_date := FieldVal.str "2022-10-24",
          latest_release_date := FieldVal.str "2024-04-02" } =
      _is_version_supported ⟨2025, 1, 1⟩
        { cycle := "other", eol := FieldVal.str "2027-10-24" } ∧
    _is_version_eol ⟨2025, 1, 1⟩
        { cycle := "3.11", eol := FieldVal.str "2027-10-24",
          latest := some "3.11.9", lts := FieldVal.bool true,
          release_date := FieldVal.str "2022-10-24",
          latest_release_date := FieldVal.str "2024-04-02" } =
      _is_version_eol ⟨2025, 1, 1⟩
        { cycle := "other", eol := FieldVal.str "2027-10-24" } :=
  evaluators_ignore_informational_fields
    { cycle := "3.11", eol := FieldVal.str "2027-10-24",
      latest := some "3.11.9", lts := FieldVal.bool true,
      release_date := FieldVal.str "2022-10-24",
      latest_release_date := FieldVal.str "2024-04-02" }
    { cycle := "other", eol := FieldVal.str "2027-10-24" }
    ⟨2025, 1, 1⟩ rfl rfl

/-- Claim C10: the empty requested version matches every record through the
prefix rule, so on a non-empty record list it resolves to the first record,
and resolving `""` to "not found" forces the record list to be empty. -/
theorem resolveVersion_empty_version (records : List CycleInfo) :
    (records ≠ [] →
      resolveVersion "" records = records.head? ∧
      (resolveVersion "" records).isSome = true) ∧
    (resolveVersion "" records = Option.none → records = []) := by
  constructor
  · intro h
    cases records with
    | nil => exact absurd rfl h
    | cons c rest => simp [resolveVersion, matchesVersion_empty c]
  · intro h
    cases records with
    | nil => rfl
    | cons c rest => simp [resolveVersion, matchesVersion_empty c] at h

/-- Witness for C10: on a two-record list, the empty version resolves to
the first record. -/
theorem resolveVersion_empty_version_witness :
    resolveVersion ""
        [({ cycle := "3.12" } : CycleInfo), { cycle := "3.11" }] =
      ([({ cycle := "3.12" } : CycleInfo), { cycle := "3.11" }]).head? ∧
    (resolveVersion ""
        [({ cycle := "3.12" } : CycleInfo), { cycle := "3.11" }]).isSome =
      true :=
  (resolveVersion_empty_version
    [({ cycle := "3.12" } : CycleInfo), { cycle := "3.11" }]).1 (by decide)

end EolSpec
